import Mathlib

/-!
Verification of the UART debug tool (src/src/main.rs) against its
natural-language specification.

The development shallowly embeds the core of the program:

* the panel data model (`Window`, `WndOp`) and the event-application step
  of the presentation loop (`UartApp::update`, lines 75–94);
* the panel-id allocator (`next_id`, an `AtomicUsize` fetch-and-increment)
  and the two registered script host functions (`new_window`, `write_wnd`);
* the reader-thread loop body (lines 153–182), as a step function over the
  outcome of one `port.read` call, together with the lock/sleep event trace
  of one iteration;
* the firmware-transfer loop ("program device", lines 222–248);
* `UartApp::send_to_uart` (lines 418–427).

Machine integers (`usize`) are modelled as `Nat`; where overflow matters —
the id counter is an `AtomicUsize` whose `fetch_add` wraps around — the
arithmetic carries an explicit `% 2^64`.
Bytes are modelled as `Nat` values; where the source decodes bytes with
`String::from_utf8_lossy` before appending to the receive buffer, the read
result carries both the byte count `n` tested by the source and the decoded
chunk, since the claims under study concern control flow, not UTF-8.
-/

/-- `struct Window { id, name, text }` from the source (a display panel). -/
structure Window where
  id : Nat
  name : String
  text : String
deriving DecidableEq, Repr

/-- `enum WndOp { New(usize, String), WriteText(usize, String), Close(usize) }`:
the panel events carried by the mpsc channel. -/
inductive WndOp where
  | New : Nat → String → WndOp
  | WriteText : Nat → String → WndOp
  | Close : Nat → WndOp
deriving DecidableEq, Repr

/-- The `WriteText` arm of `UartApp::update`:
`self.windows.iter_mut().find(|wnd| wnd.id == id)` locates the first panel
with the given id and appends `text` to it; nothing happens when no panel
matches. -/
def writeTextFirst (windows : List Window) (id : Nat) (text : String) : List Window :=
  match windows with
  | [] => []
  | w :: ws =>
    if w.id = id then { w with text := w.text ++ text } :: ws
    else w :: writeTextFirst ws id text

/-- One event applied to the panel registry, as the `match rslt` in
`UartApp::update` (lines 77–93) does it:
`Ok(New(id, name))` pushes `Window { id, name, text: String::from("hello") }`;
`Ok(WriteText(id, text))` appends to the first panel with that id;
every other consumed event (in particular `Close`) falls into the
`_ => ()` arm and changes nothing. -/
def applyWndOp (windows : List Window) : WndOp → List Window
  | WndOp.New id name => windows ++ [⟨id, name, "hello"⟩]
  | WndOp.WriteText id text => writeTextFirst windows id text
  | WndOp.Close _ => windows

/-- The event-drain step of one presentation tick (lines 75–94): a single
`ch.try_recv()` consumes at most one queued event and applies it; an empty
queue leaves everything unchanged. The channel is modelled as the FIFO list
of queued events. -/
def updateDrain (queue : List WndOp) (windows : List Window) :
    List WndOp × List Window :=
  match queue with
  | [] => ([], windows)
  | op :: rest => (rest, applyWndOp windows op)

/-- Modelled from the spec (§4.6): the draining policy the spec requires —
process *all* currently queued events in one tick. Used only to compare the
source's one-event `updateDrain` against the specified behaviour. -/
def drainAll (queue : List WndOp) (windows : List Window) :
    List WndOp × List Window :=
  ([], queue.foldl applyWndOp windows)

/-- A whole event sequence applied in order (the effect of enough
presentation ticks to empty the queue). -/
def applyEvents (windows : List Window) (ops : List WndOp) : List Window :=
  ops.foldl applyWndOp windows

/-!  ## Panel-id allocator and the script host functions  -/

/-- The number of values of a 64-bit `usize`: `AtomicUsize` arithmetic is
performed modulo this bound. -/
def USIZE : Nat := 2 ^ 64

/-- `next_id.fetch_add(1, Ordering::Relaxed)`: returns the stored counter
value and stores the incremented value. The `AtomicUsize` is modelled by
explicit state passing of its value, a `Nat` kept below `USIZE` (the
counter starts at 0 and every store is reduced `% USIZE`); `fetch_add`
wraps on overflow, hence the explicit `% USIZE` on the new value. -/
def fetch_add (counter : Nat) : Nat × Nat := (counter, (counter + 1) % USIZE)

/-- The ids handed out by `k` sequential `fetch_add` calls starting from
counter value `c`, in call order, together with the final counter value. -/
def runAllocs : Nat → Nat → Nat × List Nat
  | c, 0 => (c, [])
  | c, k + 1 =>
    let (id, c1) := fetch_add c
    let (cf, ids) := runAllocs c1 k
    (cf, id :: ids)

/-- The registered host function `new_window` (lines 450–455): allocates an
id with `fetch_add`, sends `WndOp::New(id, name)` on the channel, and
returns the id to the script. Result: (returned id, new counter, event
emitted). -/
def new_window (counter : Nat) (name : String) : Nat × Nat × WndOp :=
  let (id, c1) := fetch_add counter
  (id, c1, WndOp.New id name)

/-- The registered host function `write_wnd` (lines 456–459): sends
`WndOp::WriteText(id, text)`; no state is touched. -/
def write_wnd (id : Nat) (text : String) : WndOp :=
  WndOp.WriteText id text

/-!  ## Reader thread loop body (lines 153–182)  -/

/-- Outcome of one `port.read(&mut buf)` call. `ok n chunk` is a successful
read of `n` bytes whose `String::from_utf8_lossy` decoding is `chunk` (the
source tests `n` and appends the decoded chunk); the two error shapes are
the ones the source distinguishes by `e.kind()`. -/
inductive ReadResult where
  | ok : Nat → String → ReadResult
  | errTimedOut : ReadResult
  | errOther : ReadResult
deriving DecidableEq, Repr

/-- Where one loop iteration ends up: back to polling immediately, back to
polling after the idle sleep, or out of the loop (`break`). -/
inductive IterOutcome where
  | polling : IterOutcome
  | sleptThenPolling : IterOutcome
  | terminated : IterOutcome
deriving DecidableEq, Repr

/-- Observable events of one reader-loop iteration, in order: acquiring the
`port_clone.lock()`, releasing it (explicit `drop(port)` or end of scope),
and `thread::sleep`. -/
inductive TraceEv where
  | lockPort : TraceEv
  | unlockPort : TraceEv
  | sleepIdle : TraceEv
deriving DecidableEq, Repr

/-- One iteration of the reader thread loop, transcribed arm by arm:
`Ok(n) if n > 0` appends the decoded chunk to the rx buffer (the guard is
dropped at end of scope, after the append); `Ok(_)` (zero bytes) drops the
guard then sleeps 10 ms; `Err` with `ErrorKind::TimedOut` likewise drops
the guard then sleeps; any other `Err` breaks out of the loop. Result:
(new rx buffer, lock/sleep trace of the iteration, where control goes). -/
def readerIter (rxBuf : String) (r : ReadResult) :
    String × List TraceEv × IterOutcome :=
  match r with
  | ReadResult.ok n chunk =>
    if 0 < n then
      (rxBuf ++ chunk, [TraceEv.lockPort, TraceEv.unlockPort], IterOutcome.polling)
    else
      (rxBuf, [TraceEv.lockPort, TraceEv.unlockPort, TraceEv.sleepIdle],
        IterOutcome.sleptThenPolling)
  | ReadResult.errTimedOut =>
    (rxBuf, [TraceEv.lockPort, TraceEv.unlockPort, TraceEv.sleepIdle],
      IterOutcome.sleptThenPolling)
  | ReadResult.errOther =>
    (rxBuf, [TraceEv.lockPort, TraceEv.unlockPort], IterOutcome.terminated)

/-- Scans a trace with the current lock-held flag and reports whether a
`sleepIdle` event ever occurs while the port lock is held. -/
def sleepsHoldingLock : Bool → List TraceEv → Bool
  | _, [] => false
  | _, TraceEv.lockPort :: rest => sleepsHoldingLock true rest
  | _, TraceEv.unlockPort :: rest => sleepsHoldingLock false rest
  | held, TraceEv.sleepIdle :: rest => held || sleepsHoldingLock held rest

/-!  ## send_to_uart and the firmware-transfer loop  -/

/-- The fields of `UartApp` that `send_to_uart` can observe; the port
handle is `none` exactly when no port is held (disconnected). -/
structure AppState where
  connected : Bool
  rx_buffer : String
  tx_buffer : String
  windows : List Window
  port_handle : Option Unit
deriving DecidableEq, Repr

/-- `UartApp::send_to_uart` (lines 418–427): when a port handle is held it
spawns a writer thread that locks the port and does a best-effort
`write_all(&data)`; with no handle the `if let` does not fire and nothing
happens. Result: (state after the call, payloads handed to writer tasks).
The receiver is `&self`, so the state is returned unchanged in both
branches. -/
def send_to_uart (s : AppState) (data : List Nat) :
    AppState × List (List Nat) :=
  match s.port_handle with
  | some _ => (s, [data])
  | none => (s, [])

/-- The "program device" block loop (lines 228–243): `read_exact` into a
512-byte buffer succeeds exactly when at least 512 bytes remain, in which
case the block is passed to `send_to_uart` and the loop sleeps 10 ms before
the next block; a short read fails with `UnexpectedEof` and the loop breaks,
dropping the partial tail. Result: the block payloads passed to
`send_to_uart`, in order. -/
def programBlocks (file : List Nat) : List (List Nat) :=
  if _h : 512 ≤ file.length then
    file.take 512 :: programBlocks (file.drop 512)
  else
    []
termination_by file.length
decreasing_by
  simp only [List.length_drop]
  omega

/-!  ## Theorems  -/

/-- C8: for every panel id, a `Close` event consumed by the presentation
loop leaves the panel registry unchanged: `WndOp::Close` falls into the
`_ => ()` arm of the `match`, so no panel is removed or modified. -/
theorem close_event_leaves_registry_unchanged (windows : List Window) (id : Nat) :
    applyWndOp windows (WndOp.Close id) = windows := rfl

/-- C10: a `New` (Create) event inserts a panel carrying the event's id and
name, but with its text initialized to the literal string "hello", not the
empty string. -/
theorem new_event_text_initialized_hello (windows : List Window) (id : Nat)
    (name : String) :
    applyWndOp windows (WndOp.New id name) =
      windows ++ [{ id := id, name := name, text := "hello" }] ∧
    (Window.mk id name "hello").text ≠ "" :=
  ⟨rfl, by simp⟩

/-- C4: applying a `WriteText` (Append) event whose id matches no panel in
the registry is a silent no-op: the function is total (no error) and the
registry is returned unchanged. -/
theorem writeText_unknown_id_noop (windows : List Window) (id : Nat)
    (text : String) (h : ∀ w ∈ windows, w.id ≠ id) :
    applyWndOp windows (WndOp.WriteText id text) = windows := by
  simp only [applyWndOp]
  induction windows with
  | nil => rfl
  | cons w ws ih =>
    have hw : w.id ≠ id := h w (List.mem_cons_self w ws)
    simp only [writeTextFirst, if_neg hw]
    have := ih (fun x hx => h x (List.mem_cons_of_mem w hx))
    rw [this]

/-- Witness for C4 at a concrete registry and a concrete unknown id. -/
theorem writeText_unknown_id_noop_witness :
    (∀ w ∈ [({ id := 0, name := "a", text := "x" } : Window)], w.id ≠ 5) ∧
    applyWndOp [({ id := 0, name := "a", text := "x" } : Window)]
      (WndOp.WriteText 5 "y") = [{ id := 0, name := "a", text := "x" }] :=
  ⟨by decide, writeText_unknown_id_noop _ 5 "y" (by decide)⟩

/-- C9: with no port handle held (disconnected), `send_to_uart` is a silent
no-op for every payload: it is total (raises nothing), spawns no writer
task, and returns the application state unchanged. -/
theorem send_to_uart_disconnected_noop (s : AppState) (data : List Nat)
    (h : s.port_handle = none) :
    send_to_uart s data = (s, []) := by
  simp [send_to_uart, h]

/-- Witness for C9 at a concrete disconnected state. -/
theorem send_to_uart_disconnected_noop_witness :
    ({ connected := false, rx_buffer := "", tx_buffer := "",
       windows := [], port_handle := none } : AppState).port_handle = none ∧
    send_to_uart
      { connected := false, rx_buffer := "", tx_buffer := "",
        windows := [], port_handle := none } [1, 2, 3] =
      ({ connected := false, rx_buffer := "", tx_buffer := "",
         windows := [], port_handle := none }, []) :=
  ⟨rfl, send_to_uart_disconnected_noop _ [1, 2, 3] rfl⟩

/-- C1 (failing input): with two events queued, one presentation tick's
drain step (a single `try_recv`) applies only the first event and leaves
the second in the queue, whereas draining all queued events (the specified
policy, `drainAll`) would yield both panels. -/
theorem drain_step_consumes_single_event :
    updateDrain [WndOp.New 0 "a", WndOp.New 1 "b"] [] =
      ([WndOp.New 1 "b"], [{ id := 0, name := "a", text := "hello" }]) ∧
    drainAll [WndOp.New 0 "a", WndOp.New 1 "b"] [] =
      ([], [{ id := 0, name := "a", text := "hello" },
            { id := 1, name := "b", text := "hello" }]) :=
  ⟨rfl, rfl⟩

/-- C2 (failing input): the scenario script
`id = new_window("log"); write_wnd(id, "hello "); write_wnd(id, "world")`
run against a fresh registry with the allocator at 0 produces a panel named
"log" whose text is "hellohello world" — the "hello" initial text prepends
itself to the appended strings — not the claimed concatenation
"hello world". -/
theorem script_scenario_text_mismatch :
    applyEvents []
      [(new_window 0 "log").2.2,
       write_wnd (new_window 0 "log").1 "hello ",
       write_wnd (new_window 0 "log").1 "world"] =
      [{ id := 0, name := "log", text := "hellohello world" }] ∧
    "hellohello world" ≠ "hello world" :=
  ⟨rfl, by decide⟩

/-- C5: each reader-loop iteration behaves as the two-state machine: a
successful non-empty read appends the decoded bytes to the receive buffer
and returns to polling; a zero-byte read or a timeout error releases the
lock, sleeps the fixed interval, and returns to polling; any other I/O
error terminates the loop. -/
theorem reader_iteration_state_machine (buf chunk : String) (n : Nat) :
    readerIter buf (ReadResult.ok (n + 1) chunk) =
      (buf ++ chunk, [TraceEv.lockPort, TraceEv.unlockPort],
        IterOutcome.polling) ∧
    readerIter buf (ReadResult.ok 0 chunk) =
      (buf, [TraceEv.lockPort, TraceEv.unlockPort, TraceEv.sleepIdle],
        IterOutcome.sleptThenPolling) ∧
    readerIter buf ReadResult.errTimedOut =
      (buf, [TraceEv.lockPort, TraceEv.unlockPort, TraceEv.sleepIdle],
        IterOutcome.sleptThenPolling) ∧
    readerIter buf ReadResult.errOther =
      (buf, [TraceEv.lockPort, TraceEv.unlockPort],
        IterOutcome.terminated) := by
  refine ⟨?_, rfl, rfl, rfl⟩
  simp [readerIter]

/-- C6: in no iteration of the reader loop does the idle sleep happen while
the port lock is held: along every iteration's trace, entered with the lock
free, every `sleepIdle` event occurs after the lock has been released. -/
theorem reader_never_sleeps_holding_lock (buf : String) (r : ReadResult) :
    sleepsHoldingLock false (readerIter buf r).2.1 = false := by
  cases r with
  | ok n chunk =>
    by_cases h : 0 < n <;> simp [readerIter, h, sleepsHoldingLock]
  | errTimedOut => rfl
  | errOther => rfl

/-- The ids handed out by `k` sequential `fetch_add` calls starting from a
stored counter value `c < USIZE` are `(c+0) % USIZE, …, (c+k−1) % USIZE`,
and the counter ends at `(c + k) % USIZE`: the allocation sequence wraps
around at `USIZE`. -/
theorem runAllocs_eq (k c : Nat) (hc : c < USIZE) :
    runAllocs c k =
      ((c + k) % USIZE, (List.range k).map (fun i => (c + i) % USIZE)) := by
  induction k generalizing c with
  | zero => simp [runAllocs, Nat.mod_eq_of_lt hc]
  | succ k ih =>
    have hU : 0 < USIZE := by norm_num [USIZE]
    have hc1 : (c + 1) % USIZE < USIZE := Nat.mod_lt _ hU
    simp only [runAllocs, fetch_add, ih _ hc1, List.range_succ_eq_map,
      List.map_cons, List.map_map, Prod.mk.injEq]
    refine ⟨?_, ?_⟩
    · rw [Nat.mod_add_mod]
      congr 1
      omega
    · simp only [Nat.add_zero, Nat.mod_eq_of_lt hc]
      refine congrArg (List.cons c) ?_
      apply List.map_congr_left
      intro a _
      simp only [Function.comp_apply, Nat.succ_eq_add_one]
      rw [Nat.mod_add_mod]
      congr 1
      omega

/-- C3 (counterexample): `AtomicUsize::fetch_add` wraps at `USIZE = 2^64`,
so ids are not unique over an unbounded process lifetime: starting the
counter at 0, call number `USIZE` (0-indexed) returns id 0 again — the same
id as the very first call — so the id list of `USIZE + 1` sequential
allocations has a repeated element and is not duplicate-free. -/
theorem allocator_wraps_after_usize_calls :
    ((runAllocs 0 (USIZE + 1)).2)[0]? = some 0 ∧
    ((runAllocs 0 (USIZE + 1)).2)[USIZE]? = some 0 ∧
    0 ≠ USIZE ∧
    ¬ ((runAllocs 0 (USIZE + 1)).2).Nodup := by
  have hU : 0 < USIZE := by norm_num [USIZE]
  have hlist : (runAllocs 0 (USIZE + 1)).2
      = (List.range (USIZE + 1)).map (fun i => i % USIZE) := by
    rw [runAllocs_eq (USIZE + 1) 0 hU]
    simp
  have h0 : ((runAllocs 0 (USIZE + 1)).2)[0]? = some 0 := by
    rw [hlist, List.getElem?_map, List.getElem?_range (by omega)]
    simp [Nat.mod_eq_of_lt hU]
  have h1 : ((runAllocs 0 (USIZE + 1)).2)[USIZE]? = some 0 := by
    rw [hlist, List.getElem?_map, List.getElem?_range (by omega)]
    simp [Nat.mod_self]
  have hlen : ((runAllocs 0 (USIZE + 1)).2).length = USIZE + 1 := by
    rw [hlist]
    simp
  refine ⟨h0, h1, by omega, ?_⟩
  intro hnd
  have : (0 : Nat) = USIZE :=
    List.getElem?_inj (by omega) hnd (h0.trans h1.symm)
  omega

/-- C3 (amended): as long as the total number of allocations stays within
the `usize` range — `c + k ≤ USIZE`, so the counter never wraps during the
run — `k` sequential calls from counter value `c` return `c, c+1, …,
c+k−1` in order: pairwise strictly increasing, hence every returned id is
distinct from all previously returned ones. Moreover `new_window("A")`
called twice from a fresh counter returns the distinct ids 0 and 1, whose
two `Create` events build two separate panels named "A" with independent
text buffers: appending to either panel leaves the other's text
untouched. -/
theorem allocator_unique_increasing_before_wrap (c k : Nat) (t : String)
    (hk : c + k ≤ USIZE) :
    (runAllocs c k).2 = (List.range k).map (fun i => c + i) ∧
    ((runAllocs c k).2).Pairwise (fun a b => a < b) ∧
    (new_window 0 "A").1 ≠ (new_window (new_window 0 "A").2.1 "A").1 ∧
    applyEvents []
      [(new_window 0 "A").2.2, (new_window (new_window 0 "A").2.1 "A").2.2] =
      [{ id := 0, name := "A", text := "hello" },
       { id := 1, name := "A", text := "hello" }] ∧
    applyWndOp [{ id := 0, name := "A", text := "hello" },
                { id := 1, name := "A", text := "hello" }] (write_wnd 0 t) =
      [{ id := 0, name := "A", text := "hello" ++ t },
       { id := 1, name := "A", text := "hello" }] ∧
    applyWndOp [{ id := 0, name := "A", text := "hello" },
                { id := 1, name := "A", text := "hello" }] (write_wnd 1 t) =
      [{ id := 0, name := "A", text := "hello" },
       { id := 1, name := "A", text := "hello" ++ t }] := by
  have hids : (runAllocs c k).2 = (List.range k).map (fun i => c + i) := by
    rcases Nat.eq_zero_or_pos k with hk0 | hk0
    · subst hk0
      simp [runAllocs]
    · have hc : c < USIZE := by omega
      rw [runAllocs_eq k c hc]
      exact List.map_congr_left fun a ha =>
        Nat.mod_eq_of_lt (by have := List.mem_range.mp ha; omega)
  refine ⟨hids, ?_, by decide, rfl, ?_, ?_⟩
  · rw [hids]
    exact List.Pairwise.map _ (fun a b hab => Nat.add_lt_add_left hab c)
      (List.pairwise_lt_range k)
  · simp [applyWndOp, write_wnd, writeTextFirst]
  · simp [applyWndOp, write_wnd, writeTextFirst]

/-- Witness for the amended C3 theorem at counter 0, three allocations and
the appended text "ab". -/
theorem allocator_unique_increasing_before_wrap_witness :
    0 + 3 ≤ USIZE ∧
    ((runAllocs 0 3).2 = (List.range 3).map (fun i => 0 + i) ∧
     ((runAllocs 0 3).2).Pairwise (fun a b => a < b) ∧
     (new_window 0 "A").1 ≠ (new_window (new_window 0 "A").2.1 "A").1 ∧
     applyEvents []
       [(new_window 0 "A").2.2, (new_window (new_window 0 "A").2.1 "A").2.2] =
       [{ id := 0, name := "A", text := "hello" },
        { id := 1, name := "A", text := "hello" }] ∧
     applyWndOp [{ id := 0, name := "A", text := "hello" },
                 { id := 1, name := "A", text := "hello" }] (write_wnd 0 "ab") =
       [{ id := 0, name := "A", text := "hello" ++ "ab" },
        { id := 1, name := "A", text := "hello" }] ∧
     applyWndOp [{ id := 0, name := "A", text := "hello" },
                 { id := 1, name := "A", text := "hello" }] (write_wnd 1 "ab") =
       [{ id := 0, name := "A", text := "hello" },
        { id := 1, name := "A", text := "hello" ++ "ab" }]) :=
  ⟨by norm_num [USIZE],
   allocator_unique_increasing_before_wrap 0 3 "ab" (by norm_num [USIZE])⟩

/-- C7: the firmware-transfer loop sends exactly `⌊L/512⌋` blocks for a
file of `L` bytes: every transmitted block is a full 512-byte block, the
transmitted bytes are precisely the first `512 * ⌊L/512⌋` bytes of the file
in order, and the final partial block (the remainder after the last full
block) is dropped, never padded or sent. -/
theorem firmware_transfer_full_blocks_only (file : List Nat) :
    (programBlocks file).length = file.length / 512 ∧
    (∀ b ∈ programBlocks file, b.length = 512) ∧
    (programBlocks file).flatten = file.take (512 * (file.length / 512)) := by
  induction file using programBlocks.induct with
  | case1 file h ih =>
    obtain ⟨ihl, ihb, ihj⟩ := ih
    have hd : file.length / 512 = (file.length - 512) / 512 + 1 :=
      Nat.div_eq_sub_div (by norm_num) h
    have hdl : (file.drop 512).length = file.length - 512 := List.length_drop 512 file
    refine ⟨?_, ?_, ?_⟩
    · rw [programBlocks, dif_pos h]
      simp only [List.length_cons, ihl, hdl, hd]
    · intro b hb
      rw [programBlocks, dif_pos h] at hb
      rcases List.mem_cons.mp hb with hb | hb
      · subst hb
        simp [List.length_take, Nat.min_eq_left h]
      · exact ihb b hb
    · rw [programBlocks, dif_pos h]
      have hm : 512 * (file.length / 512) = 512 + 512 * ((file.length - 512) / 512) := by
        omega
      rw [List.flatten_cons, ihj, hdl, hm, List.take_add]
  | case2 file h =>
    have h0 : file.length / 512 = 0 := Nat.div_eq_of_lt (by omega)
    rw [programBlocks, dif_neg h]
    simp [h0]
